import Mathlib

/-!
Verification of the MoodMate core logic.

This file shallowly embeds the decision logic of the MoodMate journal
application and proves the specified properties about it:

* `analyzeSentiment` (src/server/services/sentiment.ts): the keyword-driven
  mood classifier, including the crisis short-circuit, whole-word scoring,
  and confidence computation.
* `getMoodQuoteTag` (src/server/services/sentiment.ts): the mood-to-quote-tag
  mapping.
* quote selection and the weekly mood aggregation loop
  (src/server/routes.ts).

Modelling conventions: JavaScript strings are Lean `String`s processed as
`List Char`; `toLowerCase` is modelled by `jsToLower` (the keyword
tables and all case distinctions in the source are ASCII); JavaScript
numbers are modelled by `ℚ` (all arithmetic in the source stays exact at
this scale); calendar days are modelled by integers (the source computes
day keys with `setDate`/`toISOString`, which on the 7-day window is the
usual day-number arithmetic).
-/

/-- The mood values of the source, `type MoodType` in sentiment.ts. The
spec renames `suicidal` to `crisis`; this file keeps the source name. -/
inductive MoodType where
  | happy
  | sad
  | anxious
  | suicidal
  | neutral
deriving DecidableEq, Repr

/-- Result record of `analyzeSentiment`, `interface SentimentAnalysisResult`. -/
structure SentimentAnalysisResult where
  mood : MoodType
  confidence : ℚ
  isCrisis : Bool
deriving DecidableEq, Repr

/-- The fixed keyword table, `const moodKeywords` in sentiment.ts. -/
structure MoodKeywordTable where
  happy : List String
  sad : List String
  anxious : List String
  suicidal : List String

def moodKeywords : MoodKeywordTable where
  happy := ["happy", "joy", "excited", "grateful", "blessed", "amazing",
    "wonderful", "great", "fantastic", "love", "celebration", "success",
    "achievement", "proud", "smile", "laugh"]
  sad := ["sad", "depressed", "down", "upset", "disappointed", "heartbroken",
    "crying", "tears", "lonely", "empty", "loss", "grief", "miss", "hurt",
    "pain"]
  anxious := ["anxious", "worried", "nervous", "stress", "panic",
    "overwhelmed", "scared", "fear", "tension", "restless", "uncertain",
    "doubt", "pressure", "worry"]
  suicidal := ["suicide", "kill myself", "end it all", "want to die",
    "no point", "hopeless", "worthless", "better off dead",
    "can\x27t go on", "give up", "end my life"]

/-- Model of `String.prototype.toLowerCase` on the character list of a
string: `Char.toLower` maps the ASCII uppercase letters to lowercase and
leaves every other character unchanged. Every case distinction made by the
source (keyword tables, crisis check, regex matching) is ASCII. -/
def jsToLower (s : List Char) : List Char :=
  s.map Char.toLower

/-- Character class of the JavaScript regex `\w`: ASCII letters, digits and
underscore. -/
def isJsWordChar (c : Char) : Bool :=
  (('a' ≤ c) && (c ≤ 'z')) || (('A' ≤ c) && (c ≤ 'Z')) ||
    (('0' ≤ c) && (c ≤ '9')) || c == '_'

/-- Character class of the JavaScript regex `\s` (the whitespace set used by
`split(/\s+/)`). -/
def isJsWhitespace (c : Char) : Bool :=
  c == ' ' || c == '\t' || c == '\n' || c == '\x0B' ||
    c == '\x0C' || c == '\r' || c == '\u00A0' ||
    c == '\u1680' ||
    ('\u2000' ≤ c && c ≤ '\u200A') ||
    c == '\u2028' || c == '\u2029' ||
    c == '\u202F' || c == '\u205F' ||
    c == '\u3000' || c == '\uFEFF'

/-- Model of `lowerText.split(/\s+/)`: the text is cut at every maximal run
of whitespace, keeping an empty part at a boundary exactly as the
JavaScript `String.prototype.split` does (leading or trailing whitespace
yields an empty leading or trailing part; the empty string yields `[""]`).
A whitespace character followed by more whitespace extends the current
delimiter run; a whitespace character followed by a non-whitespace
character (or the end) closes the run and opens the next part. -/
def splitOnPred (p : Char → Bool) : List Char → List (List Char)
  | [] => [[]]
  | [c] => if p c then [[], []] else [[c]]
  | c :: d :: cs =>
    if p c then
      if p d then splitOnPred p (d :: cs)
      else [] :: splitOnPred p (d :: cs)
    else
      match splitOnPred p (d :: cs) with
      | [] => [[c]]
      | t :: ts => (c :: t) :: ts

def jsSplitWs (l : List Char) : List (List Char) :=
  splitOnPred isJsWhitespace l

/-- The regex `new RegExp("\b" + keyword + "\b")` matches the literal
keyword at position `i` of `text`. Every scored keyword consists of word
characters only, so the zero-width `\b` assertions amount to: the character
before position `i` (when there is one) and the character after the match
(when there is one) are not word characters. -/
def occursAt (kw text : List Char) (i : Nat) : Bool :=
  ((text.drop i).take kw.length == kw)
    && (i == 0 || !isJsWordChar (text.getD (i - 1) ' '))
    && (i + kw.length == text.length
          || !isJsWordChar (text.getD (i + kw.length) ' '))

/-- Model of `lowerText.match(regex).length` for the global regex
`\b<keyword>\b`: the number of match positions. Because each end of a match
must sit on a word boundary, two matches can never overlap, so the global
left-to-right scan of the regex engine finds exactly the set of positions
counted here. -/
def countOccurrences (kw text : List Char) : Nat :=
  ((List.range (text.length + 1)).filter fun i => occursAt kw text i).length

/-- Per-category score: the `keywords.forEach` loop of sentiment.ts summing
the match counts of every keyword of the category. The `i` regex flag is
immaterial: the keyword lists are lowercase and the text was lowercased. -/
def moodScoreFor (keywords : List String) (text : List Char) : Nat :=
  (keywords.map fun kw => countOccurrences kw.data text).sum

/-- The crisis test of sentiment.ts:
`crisisKeywords.some(k => lowerText.includes(k.toLowerCase()))`. -/
def hasCrisisKeyword (lowerData : List Char) : Bool :=
  moodKeywords.suicidal.any fun keyword =>
    decide (jsToLower keyword.data <:+: lowerData)

/-- The score record `moodScores` of sentiment.ts after the
`Object.entries(moodKeywords).forEach` loop: the three scored categories
hold their keyword-count sums, while `suicidal` (skipped by the loop) and
`neutral` (no keyword list) keep their initial value 0. -/
structure MoodScores where
  happy : Nat
  sad : Nat
  anxious : Nat
  suicidal : Nat
  neutral : Nat

def computeMoodScores (lowerData : List Char) : MoodScores where
  happy := moodScoreFor moodKeywords.happy lowerData
  sad := moodScoreFor moodKeywords.sad lowerData
  anxious := moodScoreFor moodKeywords.anxious lowerData
  suicidal := 0
  neutral := 0

/-- `Math.max(...Object.values(moodScores))`, values in insertion order. -/
def maxScoreOf (ms : MoodScores) : Nat :=
  ms.happy.max (ms.sad.max (ms.anxious.max (ms.suicidal.max ms.neutral)))

/-- `Object.entries(moodScores)` in insertion order, the list the source
scans with `.find(([_, score]) => score === maxScore)`. -/
def scoreEntries (ms : MoodScores) : List (MoodType × Nat) :=
  [(MoodType.happy, ms.happy), (MoodType.sad, ms.sad),
    (MoodType.anxious, ms.anxious), (MoodType.suicidal, ms.suicidal),
    (MoodType.neutral, ms.neutral)]

/-- The classifier `analyzeSentiment(text)` of sentiment.ts, translated
clause by clause: lowercase, split into words, crisis short-circuit,
per-category whole-word scoring, neutral fallback on an all-zero score,
first-entry-with-maximal-score selection, capped confidence. -/
def analyzeSentiment (text : String) : SentimentAnalysisResult :=
  let lowerData := jsToLower text.data
  let words := jsSplitWs lowerData
  if hasCrisisKeyword lowerData then
    { mood := MoodType.suicidal, confidence := 9 / 10, isCrisis := true }
  else
    let moodScores := computeMoodScores lowerData
    let maxScore := maxScoreOf moodScores
    if maxScore = 0 then
      { mood := MoodType.neutral, confidence := 1 / 2, isCrisis := false }
    else
      let detectedMood :=
        ((scoreEntries moodScores).find? fun p => p.2 == maxScore).map Prod.fst
      let confidence :=
        min ((maxScore : ℚ) / (words.length : ℚ) * 10) 1
      { mood := detectedMood.getD MoodType.neutral,
        confidence := confidence, isCrisis := false }

/-- The mood-to-quote-tag switch `getMoodQuoteTag` of sentiment.ts. The
source's `default` branch coincides with the `neutral` case. -/
def getMoodQuoteTag : MoodType → String
  | MoodType.happy => "happy"
  | MoodType.sad => "sad"
  | MoodType.suicidal => "sad"
  | MoodType.anxious => "anxious"
  | MoodType.neutral => "general"

/-- A value of the request field `entryText` as the guard in routes.ts sees
it: a string, or anything else (absent, number, object, ...). -/
inductive EntryTextValue where
  | str (s : String)
  | nonString

/-- The guard of `POST /api/journal/entries` in routes.ts composed with the
classifier: `if (!entryText || typeof entryText !== "string")` answer 400
with "Entry text is required", otherwise call `analyzeSentiment(entryText)`.
The empty string is falsy in JavaScript, so `!entryText` rejects it. -/
def classifyEntryText : EntryTextValue → Except String SentimentAnalysisResult
  | EntryTextValue.str s =>
    if s = "" then Except.error "Entry text is required"
    else Except.ok (analyzeSentiment s)
  | EntryTextValue.nonString => Except.error "Entry text is required"

/-- Score of a given mood in the score record, the lookup `moodScores[mood]`. -/
def scoreOf (ms : MoodScores) : MoodType → Nat
  | MoodType.happy => ms.happy
  | MoodType.sad => ms.sad
  | MoodType.anxious => ms.anxious
  | MoodType.suicidal => ms.suicidal
  | MoodType.neutral => ms.neutral

/-- A stored observation as the weekly route projects it: the calendar day
of `entry.createdAt` (the UTC ISO date key, modelled as a day number) and
the stored `detectedMood` (a string column in the schema). -/
structure DailyObservation where
  day : ℤ
  mood : String
deriving DecidableEq, Repr

/-- One point of the weekly answer, `{date, mood, entries}` in routes.ts. -/
structure WeeklyPoint where
  date : ℤ
  mood : String
  entries : Nat
deriving DecidableEq, Repr

/-- The bucket of one calendar day in input order: the `moodByDate`
dictionary of routes.ts (entry moods pushed onto their date key) read back
at one key, with a missing key giving the empty list. -/
def dayMoodsFor (observations : List DailyObservation) (day : ℤ) :
    List String :=
  (observations.filter fun o => o.day == day).map fun o => o.mood

/-- The distinct values of a list in first-occurrence order: the key
insertion order of the `moodCounts` dictionary of routes.ts. -/
def firstOccurrences : List String → List String
  | [] => []
  | m :: ms => m :: (firstOccurrences ms).filter fun x => x != m

/-- The `moodCounts` dictionary as an association list in key insertion
order: each distinct mood of the day with its frequency. -/
def moodCountsOf (dayMoods : List String) : List (String × Nat) :=
  (firstOccurrences dayMoods).map fun m => (m, dayMoods.count m)

/-- `Object.entries(moodCounts).sort((a, b) => b[1] - a[1])` of routes.ts:
a stable sort by descending count. -/
def sortedMoodsOf (dayMoods : List String) : List (String × Nat) :=
  (moodCountsOf dayMoods).mergeSort fun a b => decide (b.2 ≤ a.2)

/-- The per-day dominant mood of routes.ts: `neutral` when the day has no
observations, otherwise the mood of `sortedMoods[0]` unless two or more
entries are tied for the top count, in which case `neutral`. The inner
`[]` branch is unreachable: the sorted counts of a non-empty day are
non-empty. -/
def dominantMoodOf (dayMoods : List String) : String :=
  if 0 < dayMoods.length then
    match sortedMoodsOf dayMoods with
    | [] => "neutral"
    | topMood :: rest =>
      if 1 < ((topMood :: rest).filter fun p => p.2 == topMood.2).length then
        "neutral"
      else topMood.1
  else "neutral"

/-- The weekly loop of routes.ts, `for (let i = 6; i >= 0; i--)`: one point
for each day of the window, oldest first, day `referenceDay - i` at loop
index `i`. -/
def aggregateWeek (observations : List DailyObservation)
    (referenceDay : ℤ) : List WeeklyPoint :=
  (List.range 7).map fun j =>
    { date := referenceDay - (6 - (j : ℤ)),
      mood :=
        dominantMoodOf (dayMoodsFor observations (referenceDay - (6 - (j : ℤ)))),
      entries :=
        (dayMoodsFor observations (referenceDay - (6 - (j : ℤ)))).length }

/-- The highest per-mood frequency of a day (0 for an empty day). -/
def maxFreqOf (dayMoods : List String) : Nat :=
  ((moodCountsOf dayMoods).map Prod.snd).foldr Nat.max 0

/-- The count entries achieving the highest frequency of the day. -/
def winnersOf (dayMoods : List String) : List (String × Nat) :=
  (moodCountsOf dayMoods).filter fun q => q.2 == maxFreqOf dayMoods

/-- A quote record, the `quotes` table of shared/schema.ts. -/
structure Quote where
  id : Nat
  quoteText : String
  author : Option String
  moodTag : String
deriving DecidableEq, Repr

/-- The quote pick of routes.ts:
`availableQuotes[Math.floor(Math.random() * availableQuotes.length)]`, with
the random draw `r` (a value of `Math.random()`, contract `0 ≤ r < 1`)
passed explicitly. Out-of-range indexing yields `undefined` in JavaScript;
`Option` models that, and `randomQuote?.id || null` downstream turns it
into an absent quote. -/
def selectQuote (candidates : List Quote) (r : ℚ) : Option Quote :=
  candidates.get? (⌊r * (candidates.length : ℚ)⌋).toNat

/-- A concrete quote used by witnesses. -/
def sampleQuote : Quote :=
  { id := 1, quoteText := "Keep going.", author := none, moodTag := "general" }

example : hasCrisisKeyword (jsToLower "I want to die".data) = true := by decide

example : hasCrisisKeyword (jsToLower "I feel happy today".data) = false := by
  decide

example : countOccurrences "happy".data
    (jsToLower "I feel happy and grateful today".data) = 1 := by decide

theorem analyzeSentiment_of_crisis (t : String)
    (h : hasCrisisKeyword (jsToLower t.data) = true) :
    analyzeSentiment t =
      { mood := MoodType.suicidal, confidence := 9 / 10, isCrisis := true } := by
  simp [analyzeSentiment, h]

theorem analyzeSentiment_of_no_match (t : String)
    (h1 : hasCrisisKeyword (jsToLower t.data) = false)
    (h2 : maxScoreOf (computeMoodScores (jsToLower t.data)) = 0) :
    analyzeSentiment t =
      { mood := MoodType.neutral, confidence := 1 / 2, isCrisis := false } := by
  simp [analyzeSentiment, h1, h2]

theorem nat_max_choice (a b : Nat) : Nat.max a b = a ∨ Nat.max a b = b := by
  rcases Nat.le_total a b with h | h
  · exact Or.inr (Nat.max_eq_right h)
  · exact Or.inl (Nat.max_eq_left h)

theorem maxScoreOf_choice (ms : MoodScores) :
    maxScoreOf ms = ms.happy ∨ maxScoreOf ms = ms.sad ∨
      maxScoreOf ms = ms.anxious ∨ maxScoreOf ms = ms.suicidal ∨
      maxScoreOf ms = ms.neutral := by
  unfold maxScoreOf
  rcases nat_max_choice ms.happy
      (ms.sad.max (ms.anxious.max (ms.suicidal.max ms.neutral))) with h1 | h1 <;>
    rw [h1]
  · exact Or.inl rfl
  rcases nat_max_choice ms.sad (ms.anxious.max (ms.suicidal.max ms.neutral))
      with h2 | h2 <;> rw [h2]
  · exact Or.inr (Or.inl rfl)
  rcases nat_max_choice ms.anxious (ms.suicidal.max ms.neutral) with h3 | h3 <;>
    rw [h3]
  · exact Or.inr (Or.inr (Or.inl rfl))
  rcases nat_max_choice ms.suicidal ms.neutral with h4 | h4 <;> rw [h4]
  · exact Or.inr (Or.inr (Or.inr (Or.inl rfl)))
  · exact Or.inr (Or.inr (Or.inr (Or.inr rfl)))

theorem find_scoreEntries (ms : MoodScores) (h0 : ms.suicidal = 0)
    (h1 : ms.neutral = 0) (hne : maxScoreOf ms ≠ 0) :
    ((scoreEntries ms).find? fun p => p.2 == maxScoreOf ms) =
      some (if ms.happy = maxScoreOf ms then (MoodType.happy, ms.happy)
        else if ms.sad = maxScoreOf ms then (MoodType.sad, ms.sad)
        else (MoodType.anxious, ms.anxious)) := by
  simp only [scoreEntries]
  by_cases hh : ms.happy = maxScoreOf ms
  · rw [if_pos hh, List.find?_cons_of_pos _ (by simpa using hh)]
  · rw [if_neg hh, List.find?_cons_of_neg _ (by simpa using hh)]
    by_cases hs : ms.sad = maxScoreOf ms
    · rw [if_pos hs, List.find?_cons_of_pos _ (by simpa using hs)]
    · have ha : ms.anxious = maxScoreOf ms := by
        rcases maxScoreOf_choice ms with h | h | h | h | h <;> omega
      rw [if_neg hs, List.find?_cons_of_neg _ (by simpa using hs),
        List.find?_cons_of_pos _ (by simpa using ha)]

theorem analyzeSentiment_of_max_ne_zero (t : String)
    (h1 : hasCrisisKeyword (jsToLower t.data) = false)
    (h2 : maxScoreOf (computeMoodScores (jsToLower t.data)) ≠ 0) :
    analyzeSentiment t =
      { mood :=
          if (computeMoodScores (jsToLower t.data)).happy =
              maxScoreOf (computeMoodScores (jsToLower t.data)) then
            MoodType.happy
          else if (computeMoodScores (jsToLower t.data)).sad =
              maxScoreOf (computeMoodScores (jsToLower t.data)) then
            MoodType.sad
          else MoodType.anxious,
        confidence :=
          min ((maxScoreOf (computeMoodScores (jsToLower t.data)) : ℚ) /
            ((jsSplitWs (jsToLower t.data)).length : ℚ) * 10) 1,
        isCrisis := false } := by
  have hfind := find_scoreEntries (computeMoodScores (jsToLower t.data))
    rfl rfl h2
  by_cases hh : (computeMoodScores (jsToLower t.data)).happy =
      maxScoreOf (computeMoodScores (jsToLower t.data))
  · simp [analyzeSentiment, h1, h2, hfind, hh]
  · by_cases hs : (computeMoodScores (jsToLower t.data)).sad =
        maxScoreOf (computeMoodScores (jsToLower t.data))
    · simp [analyzeSentiment, h1, h2, hfind, hh, hs]
    · simp [analyzeSentiment, h1, h2, hfind, hh, hs]

/-- C1: a text containing (case-insensitively, anywhere, as a substring)
any entry of the fixed crisis-keyword list is classified as
`{mood: suicidal, confidence: 0.9, isCrisis: true}`, regardless of any
other keyword occurrences in the text. -/
theorem crisis_keyword_short_circuits (t kw : String)
    (hmem : kw ∈ moodKeywords.suicidal)
    (hsub : jsToLower kw.data <:+: jsToLower t.data) :
    analyzeSentiment t =
      { mood := MoodType.suicidal, confidence := 9 / 10, isCrisis := true } := by
  apply analyzeSentiment_of_crisis
  unfold hasCrisisKeyword
  rw [List.any_eq_true]
  exact ⟨kw, hmem, by simpa using hsub⟩

/-- Witness for C1: a text that also contains happy-keywords is still
classified as a crisis because it contains "kill myself" up to case. -/
theorem crisis_keyword_short_circuits_witness :
    "kill myself" ∈ moodKeywords.suicidal ∧
    analyzeSentiment "I am HAPPY but I want to KILL Myself" =
      { mood := MoodType.suicidal, confidence := 9 / 10, isCrisis := true } :=
  ⟨by decide,
    crisis_keyword_short_circuits "I am HAPPY but I want to KILL Myself"
      "kill myself" (by decide) (by decide)⟩

/-- C2 (code bug): `analyzeSentiment` does not fail on the empty text; it
silently returns the neutral result. The surrounding route guard
(`classifyEntryText`) is what rejects empty or non-string input. -/
theorem analyzeSentiment_empty_silently_proceeds :
    analyzeSentiment "" =
      { mood := MoodType.neutral, confidence := 1 / 2, isCrisis := false } ∧
    classifyEntryText (EntryTextValue.str "") =
      Except.error "Entry text is required" ∧
    classifyEntryText EntryTextValue.nonString =
      Except.error "Entry text is required" := by
  refine ⟨analyzeSentiment_of_no_match "" (by decide) (by decide), rfl, rfl⟩

/-- C5: the classifier result has `isCrisis = true` exactly when its mood is
the crisis mood (`suicidal`); keyword scoring never produces it, because the
`suicidal` score entry is pinned to 0 and the scored maximum is nonzero on
the scoring path. -/
theorem isCrisis_iff_mood_suicidal (t : String) :
    (analyzeSentiment t).isCrisis = true ↔
      (analyzeSentiment t).mood = MoodType.suicidal := by
  cases hc : hasCrisisKeyword (jsToLower t.data)
  · by_cases hz : maxScoreOf (computeMoodScores (jsToLower t.data)) = 0
    · rw [analyzeSentiment_of_no_match t hc hz]
      simp
    · rw [analyzeSentiment_of_max_ne_zero t hc hz]
      constructor
      · intro h
        simp at h
      · intro h
        exfalso
        revert h
        split
        · simp
        · split <;> simp
  · rw [analyzeSentiment_of_crisis t hc]
    simp

theorem le_maxScoreOf (ms : MoodScores) :
    ms.happy ≤ maxScoreOf ms ∧ ms.sad ≤ maxScoreOf ms ∧
      ms.anxious ≤ maxScoreOf ms := by
  unfold maxScoreOf
  refine ⟨Nat.le_max_left _ _, ?_, ?_⟩
  · exact le_trans (Nat.le_max_left _ _) (Nat.le_max_right _ _)
  · exact le_trans (le_trans (Nat.le_max_left _ _) (Nat.le_max_right _ _))
      (Nat.le_max_right _ _)

theorem splitOnPred_length_pos (p : Char → Bool) (l : List Char) :
    0 < (splitOnPred p l).length := by
  induction l with
  | nil => simp [splitOnPred]
  | cons c cs ih =>
    cases cs with
    | nil =>
      rw [splitOnPred]
      split <;> simp
    | cons d ds =>
      rw [splitOnPred]
      split
      · split
        · exact ih
        · simp
      · cases hrec : splitOnPred p (d :: ds) with
        | nil => simp
        | cons t ts => simp

theorem jsSplitWs_length_pos (l : List Char) : 0 < (jsSplitWs l).length :=
  splitOnPred_length_pos isJsWhitespace l

/-- C6: on a text with no crisis keyword, the classifier scores each of the
three categories by summing whole-word occurrence counts of its keywords;
if every sum is zero it returns the neutral result `{neutral, 0.5, false}`,
and otherwise the returned mood is a category whose sum equals the maximal
score. -/
theorem keyword_scoring_selects_max_category (t : String)
    (hc : hasCrisisKeyword (jsToLower t.data) = false) :
    ((computeMoodScores (jsToLower t.data)).happy = 0 ∧
        (computeMoodScores (jsToLower t.data)).sad = 0 ∧
        (computeMoodScores (jsToLower t.data)).anxious = 0 →
      analyzeSentiment t =
        { mood := MoodType.neutral, confidence := 1 / 2, isCrisis := false }) ∧
    (¬((computeMoodScores (jsToLower t.data)).happy = 0 ∧
        (computeMoodScores (jsToLower t.data)).sad = 0 ∧
        (computeMoodScores (jsToLower t.data)).anxious = 0) →
      (analyzeSentiment t).mood ∈
          [MoodType.happy, MoodType.sad, MoodType.anxious] ∧
        scoreOf (computeMoodScores (jsToLower t.data))
            (analyzeSentiment t).mood =
          maxScoreOf (computeMoodScores (jsToLower t.data))) := by
  have hsui : (computeMoodScores (jsToLower t.data)).suicidal = 0 := rfl
  have hneu : (computeMoodScores (jsToLower t.data)).neutral = 0 := rfl
  have hch := maxScoreOf_choice (computeMoodScores (jsToLower t.data))
  have hle := le_maxScoreOf (computeMoodScores (jsToLower t.data))
  constructor
  · intro hz
    exact analyzeSentiment_of_no_match t hc (by omega)
  · intro hnz
    have hne : maxScoreOf (computeMoodScores (jsToLower t.data)) ≠ 0 := by
      omega
    rw [analyzeSentiment_of_max_ne_zero t hc hne]
    by_cases hh : (computeMoodScores (jsToLower t.data)).happy =
        maxScoreOf (computeMoodScores (jsToLower t.data))
    · simp [hh, scoreOf]
    · by_cases hs : (computeMoodScores (jsToLower t.data)).sad =
          maxScoreOf (computeMoodScores (jsToLower t.data))
      · simp [hh, hs, scoreOf]
      · have ha : (computeMoodScores (jsToLower t.data)).anxious =
            maxScoreOf (computeMoodScores (jsToLower t.data)) := by omega
        simp [hh, hs, ha, scoreOf]

set_option maxHeartbeats 4000000 in
/-- Witness for C6: "I feel happy and grateful today" scores 2 for the happy
category and 0 elsewhere, so the happy category with the maximal sum wins. -/
theorem keyword_scoring_selects_max_category_witness :
    hasCrisisKeyword (jsToLower "I feel happy and grateful today".data) =
        false ∧
    ¬((computeMoodScores
          (jsToLower "I feel happy and grateful today".data)).happy = 0 ∧
      (computeMoodScores
          (jsToLower "I feel happy and grateful today".data)).sad = 0 ∧
      (computeMoodScores
          (jsToLower "I feel happy and grateful today".data)).anxious = 0) ∧
    ((analyzeSentiment "I feel happy and grateful today").mood ∈
        [MoodType.happy, MoodType.sad, MoodType.anxious] ∧
      scoreOf (computeMoodScores
            (jsToLower "I feel happy and grateful today".data))
          (analyzeSentiment "I feel happy and grateful today").mood =
        maxScoreOf (computeMoodScores
          (jsToLower "I feel happy and grateful today".data))) :=
  ⟨by decide, by decide,
    (keyword_scoring_selects_max_category "I feel happy and grateful today"
      (by decide)).2 (by decide)⟩

set_option maxHeartbeats 1600000 in
/-- C7: the confidence of every classification lies in `[0, 1]`; the word
count (the length of the JavaScript split of the lowercased text) is never
zero, and on the winning-category path the confidence equals
`min(maxScore / wordCount * 10, 1)` exactly. -/
theorem confidence_always_in_unit_interval (t : String) :
    (0 ≤ (analyzeSentiment t).confidence ∧
      (analyzeSentiment t).confidence ≤ 1) ∧
    (jsSplitWs (jsToLower t.data)).length ≠ 0 ∧
    (hasCrisisKeyword (jsToLower t.data) = false →
      maxScoreOf (computeMoodScores (jsToLower t.data)) ≠ 0 →
      (analyzeSentiment t).confidence =
        min ((maxScoreOf (computeMoodScores (jsToLower t.data)) : ℚ) /
          ((jsSplitWs (jsToLower t.data)).length : ℚ) * 10) 1) := by
  refine ⟨?_, Nat.pos_iff_ne_zero.mp (jsSplitWs_length_pos _), ?_⟩
  · cases hc : hasCrisisKeyword (jsToLower t.data)
    · by_cases hz : maxScoreOf (computeMoodScores (jsToLower t.data)) = 0
      · rw [analyzeSentiment_of_no_match t hc hz]
        norm_num
      · have h := analyzeSentiment_of_max_ne_zero t hc hz
        revert h
        generalize computeMoodScores (jsToLower t.data) = ms
        generalize (jsSplitWs (jsToLower t.data)).length = L
        intro h
        rw [h]
        constructor
        · exact le_min
            (mul_nonneg (div_nonneg (Nat.cast_nonneg _) (Nat.cast_nonneg _))
              (by norm_num))
            zero_le_one
        · exact min_le_right _ _
    · rw [analyzeSentiment_of_crisis t hc]
      norm_num
  · intro hc hz
    have h := analyzeSentiment_of_max_ne_zero t hc hz
    revert h
    generalize computeMoodScores (jsToLower t.data) = ms
    generalize (jsSplitWs (jsToLower t.data)).length = L
    intro h
    rw [h]

set_option maxHeartbeats 1600000 in
/-- C10: on the scoring path, when several categories tie for the maximal
score, the returned mood is the first entry of the score table in insertion
order (`happy`, then `sad`, then `anxious`) whose score is maximal; the tie
never falls back to `neutral`. -/
theorem tie_prefers_first_in_insertion_order (t : String)
    (hc : hasCrisisKeyword (jsToLower t.data) = false)
    (hne : maxScoreOf (computeMoodScores (jsToLower t.data)) ≠ 0)
    (htie : 2 ≤ (([(computeMoodScores (jsToLower t.data)).happy,
        (computeMoodScores (jsToLower t.data)).sad,
        (computeMoodScores (jsToLower t.data)).anxious].filter fun s =>
          s == maxScoreOf (computeMoodScores (jsToLower t.data))).length)) :
    (analyzeSentiment t).mood =
      (if (computeMoodScores (jsToLower t.data)).happy =
          maxScoreOf (computeMoodScores (jsToLower t.data)) then MoodType.happy
        else if (computeMoodScores (jsToLower t.data)).sad =
          maxScoreOf (computeMoodScores (jsToLower t.data)) then MoodType.sad
        else MoodType.anxious) ∧
    (analyzeSentiment t).mood ≠ MoodType.neutral := by
  have h := analyzeSentiment_of_max_ne_zero t hc hne
  revert h
  generalize computeMoodScores (jsToLower t.data) = ms
  generalize (jsSplitWs (jsToLower t.data)).length = L
  intro h
  rw [h]
  constructor
  · rfl
  · simp only
    split
    · simp
    · split <;> simp

set_option maxHeartbeats 4000000 in
/-- Witness for C10: "happy sad" scores 1 for happy and 1 for sad (a tie),
and the classifier answers `happy`, the first tied entry in table order. -/
theorem tie_prefers_first_in_insertion_order_witness :
    2 ≤ (([(computeMoodScores (jsToLower "happy sad".data)).happy,
        (computeMoodScores (jsToLower "happy sad".data)).sad,
        (computeMoodScores (jsToLower "happy sad".data)).anxious].filter
          fun s => s == maxScoreOf
            (computeMoodScores (jsToLower "happy sad".data))).length) ∧
    ((analyzeSentiment "happy sad").mood =
      (if (computeMoodScores (jsToLower "happy sad".data)).happy =
          maxScoreOf (computeMoodScores (jsToLower "happy sad".data)) then
        MoodType.happy
        else if (computeMoodScores (jsToLower "happy sad".data)).sad =
          maxScoreOf (computeMoodScores (jsToLower "happy sad".data)) then
        MoodType.sad
        else MoodType.anxious) ∧
    (analyzeSentiment "happy sad").mood ≠ MoodType.neutral) :=
  ⟨by decide,
    tie_prefers_first_in_insertion_order "happy sad" (by decide) (by decide)
      (by decide)⟩

/-- C8: the mood-to-quote-tag mapping is total with exactly the table
`happy→happy, sad→sad, suicidal→sad, anxious→anxious, neutral→general`,
and is surjective onto the quote-tag set. -/
theorem getMoodQuoteTag_table_and_surjective :
    getMoodQuoteTag MoodType.happy = "happy" ∧
    getMoodQuoteTag MoodType.sad = "sad" ∧
    getMoodQuoteTag MoodType.suicidal = "sad" ∧
    getMoodQuoteTag MoodType.anxious = "anxious" ∧
    getMoodQuoteTag MoodType.neutral = "general" ∧
    ∀ tag ∈ ["happy", "sad", "anxious", "general"],
      ∃ m, getMoodQuoteTag m = tag := by
  refine ⟨rfl, rfl, rfl, rfl, rfl, ?_⟩
  intro tag htag
  fin_cases htag
  · exact ⟨MoodType.happy, rfl⟩
  · exact ⟨MoodType.sad, rfl⟩
  · exact ⟨MoodType.anxious, rfl⟩
  · exact ⟨MoodType.neutral, rfl⟩

theorem le_foldr_max (x : Nat) (l : List Nat) (hx : x ∈ l) :
    x ≤ l.foldr Nat.max 0 := by
  induction l with
  | nil => cases hx
  | cons a as ih =>
    simp only [List.foldr_cons]
    rcases List.mem_cons.mp hx with h | h
    · subst h
      exact Nat.le_max_left _ _
    · exact le_trans (ih h) (Nat.le_max_right _ _)

theorem foldr_max_le (l : List Nat) (m : Nat) (h : ∀ x ∈ l, x ≤ m) :
    l.foldr Nat.max 0 ≤ m := by
  induction l with
  | nil => exact Nat.zero_le m
  | cons a as ih =>
    simp only [List.foldr_cons]
    exact Nat.max_le.mpr ⟨h a (List.mem_cons_self a as),
      ih fun x hx => h x (List.mem_cons_of_mem a hx)⟩

theorem sortedMoodsOf_perm (dayMoods : List String) :
    (sortedMoodsOf dayMoods).Perm (moodCountsOf dayMoods) :=
  List.mergeSort_perm _ _

theorem sortedMoodsOf_sorted (dayMoods : List String) :
    (sortedMoodsOf dayMoods).Pairwise fun a b => b.2 ≤ a.2 := by
  have h := @List.sorted_mergeSort (String × Nat)
    (fun a b => decide (b.2 ≤ a.2))
    (fun a b c hab hbc => by
      simp only [decide_eq_true_eq] at *
      exact le_trans hbc hab)
    (fun a b => by
      simp only [Bool.or_eq_true, decide_eq_true_eq]
      exact Nat.le_total b.2 a.2)
    (moodCountsOf dayMoods)
  exact h.imp fun hab => of_decide_eq_true hab

theorem moodCountsOf_ne_nil (dayMoods : List String) (h : dayMoods ≠ []) :
    moodCountsOf dayMoods ≠ [] := by
  cases dayMoods with
  | nil => exact absurd rfl h
  | cons m ms => simp [moodCountsOf, firstOccurrences]

theorem sortedMoodsOf_ne_nil (dayMoods : List String) (h : dayMoods ≠ []) :
    sortedMoodsOf dayMoods ≠ [] := by
  intro h0
  have hlen := (sortedMoodsOf_perm dayMoods).length_eq
  rw [h0] at hlen
  have hmc := moodCountsOf_ne_nil dayMoods h
  cases hx : moodCountsOf dayMoods with
  | nil => exact hmc hx
  | cons a as =>
    rw [hx] at hlen
    simp at hlen

theorem top_count_eq_maxFreq (dayMoods : List String)
    (top : String × Nat) (rest : List (String × Nat))
    (h : sortedMoodsOf dayMoods = top :: rest) :
    top.2 = maxFreqOf dayMoods := by
  have hperm := sortedMoodsOf_perm dayMoods
  rw [h] at hperm
  have htopmem : top ∈ moodCountsOf dayMoods :=
    hperm.subset (List.mem_cons_self _ _)
  have h1 : top.2 ≤ maxFreqOf dayMoods :=
    le_foldr_max _ _ (List.mem_map_of_mem Prod.snd htopmem)
  have hsorted := sortedMoodsOf_sorted dayMoods
  rw [h] at hsorted
  have hall : ∀ q ∈ moodCountsOf dayMoods, q.2 ≤ top.2 := by
    intro q hq
    have hq2 : q ∈ top :: rest := hperm.mem_iff.mpr hq
    rcases List.mem_cons.mp hq2 with hq3 | hmem
    · subst hq3
      exact le_refl _
    · exact (List.pairwise_cons.mp hsorted).1 q hmem
  have h2 : maxFreqOf dayMoods ≤ top.2 := by
    apply foldr_max_le
    intro x hx
    rcases List.mem_map.mp hx with ⟨q, hq, rfl⟩
    exact hall q hq
  omega

theorem tied_length_eq_winners (dayMoods : List String)
    (top : String × Nat) (rest : List (String × Nat))
    (h : sortedMoodsOf dayMoods = top :: rest) :
    ((top :: rest).filter fun p => p.2 == top.2).length =
      (winnersOf dayMoods).length := by
  have htop := top_count_eq_maxFreq dayMoods top rest h
  have hperm := sortedMoodsOf_perm dayMoods
  rw [h] at hperm
  have hlen :=
    (hperm.filter fun p : String × Nat => p.2 == maxFreqOf dayMoods).length_eq
  unfold winnersOf
  rw [← hlen]
  simp only [htop]

theorem dominantMoodOf_unique (dayMoods : List String) (w : String × Nat)
    (hw : winnersOf dayMoods = [w]) : dominantMoodOf dayMoods = w.1 := by
  have hdm : dayMoods ≠ [] := by
    intro h0
    subst h0
    simp [winnersOf, moodCountsOf, firstOccurrences] at hw
  obtain ⟨top, rest, hsort⟩ :
      ∃ top rest, sortedMoodsOf dayMoods = top :: rest := by
    cases hx : sortedMoodsOf dayMoods with
    | nil => exact absurd hx (sortedMoodsOf_ne_nil dayMoods hdm)
    | cons top rest => exact ⟨top, rest, rfl⟩
  have hlenpos : 0 < dayMoods.length := List.length_pos.mpr hdm
  unfold dominantMoodOf
  rw [if_pos hlenpos, hsort]
  show (if 1 < ((top :: rest).filter fun p => p.2 == top.2).length then
    "neutral" else top.1) = w.1
  have hlen := tied_length_eq_winners dayMoods top rest hsort
  rw [hw] at hlen
  simp only [List.length_cons, List.length_nil] at hlen
  rw [if_neg (by omega)]
  have htop := top_count_eq_maxFreq dayMoods top rest hsort
  have hperm := sortedMoodsOf_perm dayMoods
  rw [hsort] at hperm
  have htopmem : top ∈ moodCountsOf dayMoods :=
    hperm.subset (List.mem_cons_self _ _)
  have htw : top ∈ winnersOf dayMoods := by
    unfold winnersOf
    exact List.mem_filter.mpr ⟨htopmem, by simp [htop]⟩
  rw [hw] at htw
  simp only [List.mem_singleton] at htw
  rw [htw]

theorem dominantMoodOf_tie (dayMoods : List String)
    (h2 : 2 ≤ (winnersOf dayMoods).length) :
    dominantMoodOf dayMoods = "neutral" := by
  have hdm : dayMoods ≠ [] := by
    intro h0
    subst h0
    simp [winnersOf, moodCountsOf, firstOccurrences] at h2
  obtain ⟨top, rest, hsort⟩ :
      ∃ top rest, sortedMoodsOf dayMoods = top :: rest := by
    cases hx : sortedMoodsOf dayMoods with
    | nil => exact absurd hx (sortedMoodsOf_ne_nil dayMoods hdm)
    | cons top rest => exact ⟨top, rest, rfl⟩
  have hlenpos : 0 < dayMoods.length := List.length_pos.mpr hdm
  unfold dominantMoodOf
  rw [if_pos hlenpos, hsort]
  show (if 1 < ((top :: rest).filter fun p => p.2 == top.2).length then
    "neutral" else top.1) = "neutral"
  have hlen := tied_length_eq_winners dayMoods top rest hsort
  rw [if_pos (by omega)]

/-- C3: the weekly aggregation always produces exactly 7 points whose days
are the 7 consecutive calendar days ending at the reference day, oldest
first, with no day missing, duplicated or outside the window. -/
theorem aggregateWeek_window (observations : List DailyObservation)
    (referenceDay : ℤ) :
    (aggregateWeek observations referenceDay).length = 7 ∧
    (aggregateWeek observations referenceDay).map WeeklyPoint.date =
      [referenceDay - 6, referenceDay - 5, referenceDay - 4,
        referenceDay - 3, referenceDay - 2, referenceDay - 1,
        referenceDay] := by
  have hr : List.range 7 = [0, 1, 2, 3, 4, 5, 6] := rfl
  have hmap : (aggregateWeek observations referenceDay).map WeeklyPoint.date =
      [referenceDay - 6, referenceDay - 5, referenceDay - 4,
        referenceDay - 3, referenceDay - 2, referenceDay - 1,
        referenceDay] := by
    simp only [aggregateWeek, hr, List.map_cons, List.map_nil]
    norm_num
  refine ⟨?_, hmap⟩
  have h := congrArg List.length hmap
  rw [List.length_map] at h
  simpa using h

/-- C4: each point of the weekly answer carries the day's dominant mood and
its total observation count: `neutral` with count 0 for a day with no
observations; the winning mood when exactly one mood attains the maximal
frequency; `neutral` on a tie of two or more moods; and the entry count is
always the day's total number of observations. -/
theorem aggregateWeek_day_points (observations : List DailyObservation)
    (referenceDay : ℤ) (p : WeeklyPoint)
    (hp : p ∈ aggregateWeek observations referenceDay) :
    (dayMoodsFor observations p.date = [] →
      p.mood = "neutral" ∧ p.entries = 0) ∧
    (∀ w, winnersOf (dayMoodsFor observations p.date) = [w] →
      p.mood = w.1) ∧
    (2 ≤ (winnersOf (dayMoodsFor observations p.date)).length →
      p.mood = "neutral") ∧
    p.entries = (dayMoodsFor observations p.date).length := by
  rcases List.mem_map.mp hp with ⟨j, hj, rfl⟩
  refine ⟨?_, ?_, ?_, rfl⟩
  · intro hemp
    simp [hemp, dominantMoodOf]
  · intro w hw
    exact dominantMoodOf_unique _ w hw
  · intro h2
    exact dominantMoodOf_tie _ h2

/-- Witness for C4: with no observations at all, the point of the reference
day itself is `{date: 0, mood: neutral, entries: 0}` and satisfies all the
per-day clauses. -/
theorem aggregateWeek_day_points_witness :
    ((⟨0, "neutral", 0⟩ : WeeklyPoint) ∈ aggregateWeek [] 0) ∧
    ((dayMoodsFor [] (0 : ℤ) = [] →
        (⟨0, "neutral", 0⟩ : WeeklyPoint).mood = "neutral" ∧
        (⟨0, "neutral", 0⟩ : WeeklyPoint).entries = 0) ∧
      (∀ w, winnersOf (dayMoodsFor [] (0 : ℤ)) = [w] →
        (⟨0, "neutral", 0⟩ : WeeklyPoint).mood = w.1) ∧
      (2 ≤ (winnersOf (dayMoodsFor [] (0 : ℤ))).length →
        (⟨0, "neutral", 0⟩ : WeeklyPoint).mood = "neutral") ∧
      (⟨0, "neutral", 0⟩ : WeeklyPoint).entries =
        (dayMoodsFor [] (0 : ℤ)).length) :=
  ⟨by decide, aggregateWeek_day_points [] 0 _ (by decide)⟩

/-- C9: quote selection on an empty candidate list answers `none` rather
than failing, and on a non-empty list the selected quote is always one of
the candidates, for every random draw in `[0, 1)`. -/
theorem selectQuote_none_or_mem (candidates : List Quote) (r : ℚ)
    (h0 : 0 ≤ r) (h1 : r < 1) :
    (candidates = [] → selectQuote candidates r = none) ∧
    (candidates ≠ [] → ∃ q ∈ candidates,
      selectQuote candidates r = some q) := by
  constructor
  · intro he
    subst he
    simp [selectQuote]
  · intro hne
    have hlen : 0 < candidates.length := List.length_pos.mpr hne
    have hmul : r * (candidates.length : ℚ) <
        ((candidates.length : ℤ) : ℚ) := by
      push_cast
      calc r * (candidates.length : ℚ)
          < 1 * (candidates.length : ℚ) := by
            apply mul_lt_mul_of_pos_right h1
            exact_mod_cast hlen
        _ = (candidates.length : ℚ) := one_mul _
    have hflt : ⌊r * (candidates.length : ℚ)⌋ < (candidates.length : ℤ) :=
      Int.floor_lt.mpr hmul
    have hfl0 : 0 ≤ ⌊r * (candidates.length : ℚ)⌋ :=
      Int.floor_nonneg.mpr (mul_nonneg h0 (Nat.cast_nonneg _))
    have hidx : (⌊r * (candidates.length : ℚ)⌋).toNat <
        candidates.length := by
      omega
    refine ⟨candidates.get ⟨_, hidx⟩, List.get_mem _ _ _, ?_⟩
    unfold selectQuote
    exact List.get?_eq_get hidx

/-- Witness for C9: a one-quote candidate list with the draw 0 selects that
quote, a member of the list. -/
theorem selectQuote_none_or_mem_witness :
    (0 : ℚ) ≤ 0 ∧ (0 : ℚ) < 1 ∧
    ∃ q ∈ [sampleQuote], selectQuote [sampleQuote] 0 = some q :=
  ⟨le_refl 0, zero_lt_one,
    (selectQuote_none_or_mem [sampleQuote] 0 (le_refl 0) zero_lt_one).2
      (List.cons_ne_nil _ _)⟩
